import Mathlib

/-!
Verification of the template-rendering core of open-workbench-cli.

The repository ships a single template file, templates/fastapi-basic/main.py,
whose text is embedded below verbatim. The renderer itself is not among the
repository's source files, so it is modelled from the specification: a pure
function from a template (an ordered sequence of relative-path/content pairs)
and a variable set (a name-to-value mapping) to either a rendered output or
the first render error met in a left-to-right scan, file by file.
-/

set_option maxRecDepth 16384

namespace OpenWorkbench

/-- Modelled from the spec: the renderer's two error kinds.
UnresolvedVariable(name, filePath) reports a token whose name the variable
set does not resolve; MalformedToken(filePath, offset) reports an opening
token delimiter, at the given character offset, that is never closed within
the file. The renderer itself is missing from the repository's files. -/
inductive RenderError where
  | UnresolvedVariable (name : String) (filePath : String)
  | MalformedToken (filePath : String) (offset : Nat)
deriving DecidableEq, Repr

/-- Modelled from the spec: a template is an ordered sequence of
(relative file path, raw text content) pairs. -/
abbrev Template := List (String × String)

/-- Modelled from the spec: a variable set maps variable names to string
values; it is queried by name. -/
abbrev VariableSet := List (String × String)

/-- Modelled from the spec: the rendered output is an ordered sequence of
(relative file path, substituted text content) pairs. -/
abbrev RenderedOutput := List (String × String)

/-- Lookup of a variable name in a variable set: the value of the first
entry carrying that name, if any. -/
def lookupVar (vars : VariableSet) (n : String) : Option String :=
  match vars with
  | [] => none
  | (k, v) :: rest => if k = n then some v else lookupVar rest n

/-- One span of a scanned file content: a literal character outside any
token, a recognized placeholder token carrying its variable name, or an
opening delimiter at the given offset that is never closed in the file. -/
inductive Piece where
  | lit (c : Char)
  | tok (name : String)
  | bad (offset : Nat)
deriving DecidableEq, Repr

/-- Modelled from the spec: the left-to-right scan that identifies token
spans. Outside a token (mode none) the three characters open-brace,
open-brace, dot open a token; inside a token (mode some (st, acc), where st
is the offset of the opening delimiter and acc holds the name characters
read so far, in reverse) two close-braces close it, and reaching the end of
the file inside a token records an unclosed delimiter at st. -/
def scanPieces : Option (Nat × List Char) → List Char → Nat → List Piece
  | none, '{' :: '{' :: '.' :: rest, off => scanPieces (some (off, [])) rest (off + 3)
  | none, c :: rest, off => Piece.lit c :: scanPieces none rest (off + 1)
  | none, [], _ => []
  | some (_, acc), '}' :: '}' :: rest, off =>
      Piece.tok (String.mk acc.reverse) :: scanPieces none rest (off + 2)
  | some (st, acc), c :: rest, off => scanPieces (some (st, c :: acc)) rest (off + 1)
  | some (st, _), [], _ => [Piece.bad st]

/-- Unfolding equation of the scan for a character that does not open a
token: it passes through as a literal. -/
theorem scanPieces_lit (c : Char) (rest : List Char) (off : Nat)
    (hne : ∀ rest1 : List Char, c = '{' → rest = '{' :: '.' :: rest1 → False) :
    scanPieces none (c :: rest) off = Piece.lit c :: scanPieces none rest (off + 1) := by
  rw [scanPieces.eq_def]
  split
  all_goals simp_all

/-- Unfolding equation of the scan for a character inside a token that does
not close it: it is accumulated onto the token's name. -/
theorem scanPieces_inname (st : Nat) (acc : List Char) (c : Char) (rest : List Char) (off : Nat)
    (hne : ∀ rest1 : List Char, c = '}' → rest = '}' :: rest1 → False) :
    scanPieces (some (st, acc)) (c :: rest) off =
      scanPieces (some (st, c :: acc)) rest (off + 1) := by
  rw [scanPieces.eq_def]
  split
  all_goals simp_all

/-- The spans of one file content, scanned from offset 0 outside any token. -/
def filePieces (content : String) : List Piece := scanPieces none content.data 0

/-- The source text a piece stands for: a literal character stands for
itself and a token for its delimited span. -/
def pieceSource : Piece → List Char
  | Piece.lit c => [c]
  | Piece.tok n => '{' :: '{' :: '.' :: (n.data ++ ['}', '}'])
  | Piece.bad _ => []

/-- The source text a list of pieces stands for. -/
def piecesSource : List Piece → List Char
  | [] => []
  | p :: ps => pieceSource p ++ piecesSource ps

/-- Modelled from the spec: the substitution a piece produces. A literal
character is left unchanged; a token is replaced by the value its name looks
up in the variable set. -/
def pieceRender (vars : VariableSet) : Piece → List Char
  | Piece.lit c => [c]
  | Piece.tok n => ((lookupVar vars n).getD "").data
  | Piece.bad _ => []

/-- The substituted text of a list of pieces. -/
def piecesRender (vars : VariableSet) : List Piece → List Char
  | [] => []
  | p :: ps => pieceRender vars p ++ piecesRender vars ps

/-- The variable names referenced by the tokens of a list of pieces, in scan
order. -/
def piecesTokens : List Piece → List String
  | [] => []
  | Piece.lit _ :: ps => piecesTokens ps
  | Piece.tok n :: ps => n :: piecesTokens ps
  | Piece.bad _ :: ps => piecesTokens ps

/-- The variable names referenced by the tokens of a file content, in scan
order. -/
def contentTokens (content : String) : List String := piecesTokens (filePieces content)

/-- True when a list of pieces has no unclosed opening delimiter. -/
def noBad : List Piece → Bool
  | [] => true
  | Piece.lit _ :: ps => noBad ps
  | Piece.tok _ :: ps => noBad ps
  | Piece.bad _ :: _ => false

/-- True when a file content has an opening delimiter never closed within
the file. -/
def hasUnclosed (content : String) : Bool := !(noBad (filePieces content))

/-- True when the text contains the three-character opening delimiter
open-brace, open-brace, dot anywhere. -/
def hasOpenDelim : List Char → Bool
  | '{' :: '{' :: '.' :: _ => true
  | _ :: rest => hasOpenDelim rest
  | [] => false

/-- Modelled from the spec: every error site of a scanned file, in scan
order: a token whose name the variable set does not resolve yields an
UnresolvedVariable error, an unclosed opening delimiter a MalformedToken
error. -/
def piecesErrors (path : String) (vars : VariableSet) : List Piece → List RenderError
  | [] => []
  | Piece.lit _ :: ps => piecesErrors path vars ps
  | Piece.tok n :: ps =>
      match lookupVar vars n with
      | some _ => piecesErrors path vars ps
      | none => RenderError.UnresolvedVariable n path :: piecesErrors path vars ps
  | Piece.bad k :: ps => RenderError.MalformedToken path k :: piecesErrors path vars ps

/-- Modelled from the spec: substitution over the scanned spans of one file,
aborting at the first error met in scan order. Literal characters pass
through unchanged; a token is replaced by the value its name resolves to, or
the render fails with UnresolvedVariable; an unclosed opening delimiter
fails the render with MalformedToken. -/
def renderPieces (path : String) (vars : VariableSet) : List Piece → Except RenderError (List Char)
  | [] => Except.ok []
  | Piece.lit c :: ps => (renderPieces path vars ps).map (fun out => c :: out)
  | Piece.tok n :: ps =>
      match lookupVar vars n with
      | none => Except.error (RenderError.UnresolvedVariable n path)
      | some v => (renderPieces path vars ps).map (fun out => v.data ++ out)
  | Piece.bad k :: _ => Except.error (RenderError.MalformedToken path k)

/-- Rendering one file entry: its content is scanned and substituted; the
path is kept unchanged. -/
def renderFile (vars : VariableSet) (f : String × String) : Except RenderError (String × String) :=
  (renderPieces f.1 vars (filePieces f.2)).map (fun out => (f.1, String.mk out))

/-- Modelled from the spec: render(template, variables). Files are processed
in template order; the first error aborts the whole render, so no partial
output is ever returned. -/
def render : Template → VariableSet → Except RenderError RenderedOutput
  | [], _ => Except.ok []
  | f :: fs, vars =>
    match renderFile vars f with
    | Except.error e => Except.error e
    | Except.ok g =>
      match render fs vars with
      | Except.error e => Except.error e
      | Except.ok gs => Except.ok (g :: gs)

/-- The error sites of one file entry, in scan order. -/
def fileErrors (vars : VariableSet) (f : String × String) : List RenderError :=
  piecesErrors f.1 vars (filePieces f.2)

/-- Every error site of a template, ordered by file sequence and, within a
file, by left-to-right scan position. -/
def renderErrors : Template → VariableSet → List RenderError
  | [], _ => []
  | f :: fs, vars => fileErrors vars f ++ renderErrors fs vars

/-- The fully substituted output of a template: same paths, each content the
substitution of its scanned spans. -/
def renderedTemplate (vars : VariableSet) (t : Template) : RenderedOutput :=
  t.map (fun f => (f.1, String.mk (piecesRender vars (filePieces f.2))))

/-! Basic facts relating the aborting substitution to the declarative lists
of error sites and substituted spans. -/

theorem renderPieces_eq (path : String) (vars : VariableSet) (ps : List Piece) :
    renderPieces path vars ps =
      (match piecesErrors path vars ps with
       | [] => Except.ok (piecesRender vars ps)
       | e :: _ => Except.error e) := by
  induction ps with
  | nil => rfl
  | cons p ps ih =>
    cases p with
    | lit c =>
      rw [renderPieces, ih]
      cases h : piecesErrors path vars ps <;>
        simp [piecesErrors, piecesRender, pieceRender, h, Except.map]
    | tok n =>
      cases hl : lookupVar vars n with
      | none =>
        simp [renderPieces, piecesErrors, hl]
      | some v =>
        rw [renderPieces, ih]
        cases h : piecesErrors path vars ps <;>
          simp [piecesErrors, piecesRender, pieceRender, h, hl, Except.map]
    | bad k =>
      simp [renderPieces, piecesErrors]

theorem render_eq (t : Template) (vars : VariableSet) :
    render t vars =
      (match renderErrors t vars with
       | [] => Except.ok (renderedTemplate vars t)
       | e :: _ => Except.error e) := by
  induction t with
  | nil => rfl
  | cons f fs ih =>
    have hf := renderPieces_eq f.1 vars (filePieces f.2)
    cases hE : fileErrors vars f with
    | cons e es =>
      have h1 : renderFile vars f = Except.error e := by
        rw [renderFile, hf]
        rw [fileErrors] at hE
        rw [hE]
        rfl
      simp [render, h1, renderErrors, hE]
    | nil =>
      have h1 : renderFile vars f =
          Except.ok (f.1, String.mk (piecesRender vars (filePieces f.2))) := by
        rw [renderFile, hf]
        rw [fileErrors] at hE
        rw [hE]
        rfl
      rw [render, h1, ih]
      cases hR : renderErrors fs vars <;>
        simp [renderErrors, hE, hR, renderedTemplate]

theorem render_ok_iff (t : Template) (vars : VariableSet) :
    render t vars = Except.ok (renderedTemplate vars t) ↔ renderErrors t vars = [] := by
  rw [render_eq]
  cases h : renderErrors t vars <;> simp

theorem render_ok_shape (t : Template) (vars : VariableSet) (out : RenderedOutput)
    (h : render t vars = Except.ok out) :
    out = renderedTemplate vars t ∧ renderErrors t vars = [] := by
  rw [render_eq] at h
  cases hR : renderErrors t vars with
  | nil => rw [hR] at h; simp at h; exact ⟨h.symm, rfl⟩
  | cons e es => rw [hR] at h; simp at h

/-! The scan decomposes its input exactly: when no opening delimiter is left
unclosed, concatenating the source text of the scanned pieces gives back the
characters scanned, the part already consumed inside an open token included. -/

/-- The characters already consumed when the scan stands in a given mode:
nothing outside a token, the opening delimiter plus the name characters read
so far inside one. -/
def modePrefix : Option (Nat × List Char) → List Char
  | none => []
  | some (_, acc) => '{' :: '{' :: '.' :: acc.reverse

theorem piecesSource_scan (mode : Option (Nat × List Char)) (cs : List Char) (off : Nat)
    (h : noBad (scanPieces mode cs off) = true) :
    piecesSource (scanPieces mode cs off) = modePrefix mode ++ cs := by
  induction mode, cs, off using scanPieces.induct with
  | case1 rest off ih =>
    rw [scanPieces] at h ⊢
    rw [ih h]
    simp [modePrefix]
  | case2 c rest off hne ih =>
    rw [scanPieces_lit c rest off hne] at h ⊢
    rw [noBad] at h
    rw [piecesSource, ih h, pieceSource]
    simp [modePrefix]
  | case3 off => simp [scanPieces, piecesSource, modePrefix]
  | case4 st acc rest off ih =>
    rw [scanPieces] at h ⊢
    rw [noBad] at h
    rw [piecesSource, ih h, pieceSource]
    simp [modePrefix]
  | case5 st acc c rest off hne ih =>
    rw [scanPieces_inname st acc c rest off hne] at h ⊢
    rw [ih h]
    simp [modePrefix]
  | case6 st acc off => simp [scanPieces, noBad] at h

/-- For a whole file: when no opening delimiter is unclosed, the scanned
pieces decompose the content exactly. -/
theorem filePieces_source (content : String) (h : noBad (filePieces content) = true) :
    piecesSource (filePieces content) = content.data := by
  have := piecesSource_scan none content.data 0 h
  simpa [modePrefix, filePieces] using this

/-! A content without the opening delimiter anywhere scans to literals only,
so rendering leaves it unchanged. -/

theorem hasOpenDelim_cons (c : Char) (rest : List Char)
    (h : hasOpenDelim (c :: rest) = false) : hasOpenDelim rest = false := by
  rw [hasOpenDelim.eq_def] at h
  split at h <;> simp_all

theorem scan_no_delim (cs : List Char) (off : Nat) (h : hasOpenDelim cs = false) :
    scanPieces none cs off = cs.map Piece.lit := by
  induction cs generalizing off with
  | nil => simp [scanPieces]
  | cons c rest ih =>
    have hne : ∀ rest1 : List Char, c = '{' → rest = '{' :: '.' :: rest1 → False := by
      intro rest1 hc hr
      subst hc
      subst hr
      simp [hasOpenDelim] at h
    rw [scanPieces_lit c rest off hne, ih (off + 1) (hasOpenDelim_cons c rest h)]
    simp

theorem piecesErrors_lits (path : String) (vars : VariableSet) (l : List Char) :
    piecesErrors path vars (l.map Piece.lit) = [] := by
  induction l <;> simp_all [piecesErrors]

theorem piecesRender_lits (vars : VariableSet) (l : List Char) :
    piecesRender vars (l.map Piece.lit) = l := by
  induction l <;> simp_all [piecesRender, pieceRender]

theorem string_mk_data (s : String) : String.mk s.data = s := by
  cases s
  rfl

/-! Membership facts tying tokens and unclosed delimiters to error sites. -/

theorem tok_mem_of_token (ps : List Piece) (n : String) (h : n ∈ piecesTokens ps) :
    Piece.tok n ∈ ps := by
  induction ps with
  | nil => simp [piecesTokens] at h
  | cons p rest ih =>
    cases p with
    | lit c =>
      rw [piecesTokens] at h
      exact List.mem_cons_of_mem _ (ih h)
    | tok m =>
      rw [piecesTokens] at h
      rcases List.mem_cons.mp h with h1 | h2
      · subst h1
        exact List.mem_cons_self _ _
      · exact List.mem_cons_of_mem _ (ih h2)
    | bad k =>
      rw [piecesTokens] at h
      exact List.mem_cons_of_mem _ (ih h)

theorem unresolved_mem_piecesErrors (path : String) (vars : VariableSet) (ps : List Piece)
    (n : String) (ht : Piece.tok n ∈ ps) (hv : lookupVar vars n = none) :
    RenderError.UnresolvedVariable n path ∈ piecesErrors path vars ps := by
  induction ps with
  | nil => simp at ht
  | cons p rest ih =>
    rcases List.mem_cons.mp ht with h1 | h2
    · subst h1
      rw [piecesErrors, hv]
      exact List.mem_cons_self _ _
    · cases p with
      | lit c => rw [piecesErrors]; exact ih h2
      | tok m =>
        rw [piecesErrors]
        cases hm : lookupVar vars m with
        | none => exact List.mem_cons_of_mem _ (ih h2)
        | some v => exact ih h2
      | bad k =>
        rw [piecesErrors]
        exact List.mem_cons_of_mem _ (ih h2)

theorem bad_mem_of_not_noBad (ps : List Piece) (h : noBad ps = false) :
    ∃ k, Piece.bad k ∈ ps := by
  induction ps with
  | nil => simp [noBad] at h
  | cons p rest ih =>
    cases p with
    | lit c =>
      rw [noBad] at h
      rcases ih h with ⟨k, hk⟩
      exact ⟨k, List.mem_cons_of_mem _ hk⟩
    | tok m =>
      rw [noBad] at h
      rcases ih h with ⟨k, hk⟩
      exact ⟨k, List.mem_cons_of_mem _ hk⟩
    | bad k => exact ⟨k, List.mem_cons_self _ _⟩

theorem malformed_mem_piecesErrors (path : String) (vars : VariableSet) (ps : List Piece)
    (k : Nat) (h : Piece.bad k ∈ ps) :
    RenderError.MalformedToken path k ∈ piecesErrors path vars ps := by
  induction ps with
  | nil => simp at h
  | cons p rest ih =>
    rcases List.mem_cons.mp h with h1 | h2
    · subst h1
      rw [piecesErrors]
      exact List.mem_cons_self _ _
    · cases p with
      | lit c => rw [piecesErrors]; exact ih h2
      | tok m =>
        rw [piecesErrors]
        cases hm : lookupVar vars m with
        | none => exact List.mem_cons_of_mem _ (ih h2)
        | some v => exact ih h2
      | bad j =>
        rw [piecesErrors]
        exact List.mem_cons_of_mem _ (ih h2)

theorem piecesErrors_nil_iff (path : String) (vars : VariableSet) (ps : List Piece) :
    piecesErrors path vars ps = [] ↔
      (noBad ps = true ∧ ∀ n ∈ piecesTokens ps, (lookupVar vars n).isSome = true) := by
  induction ps with
  | nil => simp [piecesErrors, piecesTokens, noBad]
  | cons p rest ih =>
    cases p with
    | lit c => simpa [piecesErrors, piecesTokens, noBad] using ih
    | tok m =>
      cases hm : lookupVar vars m with
      | none => simp [piecesErrors, piecesTokens, noBad, hm]
      | some v => simp [piecesErrors, piecesTokens, noBad, hm, ih]
    | bad k => simp [piecesErrors, piecesTokens, noBad]

theorem errors_unresolved_of_noBad (path : String) (vars : VariableSet) (ps : List Piece)
    (h : noBad ps = true) (e : RenderError) (he : e ∈ piecesErrors path vars ps) :
    ∃ n, e = RenderError.UnresolvedVariable n path := by
  induction ps with
  | nil => simp [piecesErrors] at he
  | cons p rest ih =>
    cases p with
    | lit c =>
      rw [noBad] at h
      rw [piecesErrors] at he
      exact ih h he
    | tok m =>
      rw [noBad] at h
      rw [piecesErrors] at he
      cases hm : lookupVar vars m with
      | none =>
        rw [hm] at he
        rcases List.mem_cons.mp he with h1 | h2
        · exact ⟨m, h1⟩
        · exact ih h h2
      | some v =>
        rw [hm] at he
        exact ih h he
    | bad k => simp [noBad] at h

theorem mem_renderErrors (t : Template) (vars : VariableSet) (f : String × String)
    (e : RenderError) (hf : f ∈ t) (he : e ∈ fileErrors vars f) :
    e ∈ renderErrors t vars := by
  induction t with
  | nil => simp at hf
  | cons g fs ih =>
    rw [renderErrors]
    rcases List.mem_cons.mp hf with h1 | h2
    · subst h1
      exact List.mem_append_left _ he
    · exact List.mem_append_right _ (ih h2)

theorem renderErrors_nil_iff (t : Template) (vars : VariableSet) :
    renderErrors t vars = [] ↔ ∀ f ∈ t, fileErrors vars f = [] := by
  induction t with
  | nil => simp [renderErrors]
  | cons g fs ih => simp [renderErrors, ih]

/-- Shared helper: the render of a template whose declarative error list is
nonempty fails with that list's first element. -/
theorem render_head_error (t : Template) (vars : VariableSet) (e : RenderError)
    (h : (renderErrors t vars).head? = some e) :
    render t vars = Except.error e := by
  cases hR : renderErrors t vars with
  | nil => rw [hR] at h; simp at h
  | cons e1 es =>
    rw [hR] at h
    simp at h
    subst h
    rw [render_eq, hR]

/-! The claims. -/

/-- C3: rendering the one-file template main.txt with content
Hello {{.ProjectName}}, owner {{.Owner}}. against the variable set
ProjectName = Atlas, Owner = Jane returns exactly one output file main.txt
with content Hello Atlas, owner Jane. (tokens written with escaped braces). -/
theorem render_concrete_scenario :
    render [("main.txt", "Hello \x7b\x7b.ProjectName\x7d\x7d, owner \x7b\x7b.Owner\x7d\x7d.")]
        [("ProjectName", "Atlas"), ("Owner", "Jane")] =
      Except.ok [("main.txt", "Hello Atlas, owner Jane.")] := by
  rfl

/-- C5 (amended): rendering a template none of whose file contents contain
the opening delimiter at all (hence no token and no unclosed delimiter)
succeeds and is the identity on every file, for every variable set. -/
theorem render_identity (t : Template) (vars : VariableSet)
    (h : ∀ f ∈ t, hasOpenDelim f.2.data = false) :
    render t vars = Except.ok t := by
  induction t with
  | nil => rfl
  | cons f fs ih =>
    have h1 : filePieces f.2 = f.2.data.map Piece.lit :=
      scan_no_delim f.2.data 0 (h f (List.mem_cons_self _ _))
    have hf : renderFile vars f = Except.ok f := by
      rw [renderFile, renderPieces_eq, h1, piecesErrors_lits]
      simp [piecesRender_lits, Except.map, string_mk_data]
    simp [render, hf, ih (fun g hg => h g (List.mem_cons_of_mem _ hg))]

/-- C5 witness: a concrete token-free, delimiter-free file is returned
byte-identical. -/
theorem render_identity_at_plain :
    render [("readme.txt", "plain text, no tokens")] [] =
      Except.ok [("readme.txt", "plain text, no tokens")] :=
  render_identity _ _ (by decide)

/-- C5 counterexample: the content consisting of the three characters of an
unclosed opening delimiter contains no placeholder token, yet rendering it
fails with MalformedToken instead of returning the content unchanged. -/
theorem render_cex_unclosed_no_tokens :
    contentTokens "\x7b\x7b." = [] ∧
    render [("a.txt", "\x7b\x7b.")] [] =
      Except.error (RenderError.MalformedToken "a.txt" 0) :=
  ⟨rfl, rfl⟩

/-- C6: when a template has error sites, render returns exactly the first
error in the declarative site list, which is ordered by file sequence and,
within a file, by left-to-right scan position, and returns no output. -/
theorem render_first_error (t : Template) (vars : VariableSet) (e : RenderError)
    (h : (renderErrors t vars).head? = some e) :
    render t vars = Except.error e :=
  render_head_error t vars e h

/-- C6 witness: with two unresolved tokens in one file, the scan-first one
is reported. -/
theorem render_first_error_at :
    render [("a.txt", "\x7b\x7b.X\x7d\x7d\x7b\x7b.Y\x7d\x7d")] [] =
      Except.error (RenderError.UnresolvedVariable "X" "a.txt") :=
  render_first_error _ _ _ rfl

/-- C2 (amended): when some file of the template references a token name the
variable set does not resolve, the render fails (producing zero output
files); the error reported is the first error site in file order and scan
order, which is UnresolvedVariable with that site's name and path whenever
that first site is a missing-variable token. -/
theorem render_missing_fails (t : Template) (vars : VariableSet) (p c n : String)
    (hf : (p, c) ∈ t) (hn : n ∈ contentTokens c) (hv : lookupVar vars n = none) :
    (∃ e, render t vars = Except.error e) ∧
    (∀ m q, (renderErrors t vars).head? = some (RenderError.UnresolvedVariable m q) →
      render t vars = Except.error (RenderError.UnresolvedVariable m q)) := by
  constructor
  · have htok : Piece.tok n ∈ filePieces c := tok_mem_of_token _ _ hn
    have hmem : RenderError.UnresolvedVariable n p ∈ fileErrors vars (p, c) :=
      unresolved_mem_piecesErrors p vars _ n htok hv
    have hmem2 : RenderError.UnresolvedVariable n p ∈ renderErrors t vars :=
      mem_renderErrors t vars (p, c) _ hf hmem
    cases hR : renderErrors t vars with
    | nil => rw [hR] at hmem2; simp at hmem2
    | cons e es =>
      refine ⟨e, ?_⟩
      rw [render_eq, hR]
  · intro m q h
    exact render_head_error t vars _ h

/-- C2 witness: a single missing variable makes the whole render fail. -/
theorem render_missing_fails_at :
    (∃ e, render [("f.txt", "\x7b\x7b.Z\x7d\x7d")] [] = Except.error e) ∧
    (∀ m q, (renderErrors [("f.txt", "\x7b\x7b.Z\x7d\x7d")] []).head? =
        some (RenderError.UnresolvedVariable m q) →
      render [("f.txt", "\x7b\x7b.Z\x7d\x7d")] [] =
        Except.error (RenderError.UnresolvedVariable m q)) :=
  render_missing_fails _ _ "f.txt" "\x7b\x7b.Z\x7d\x7d" "Z" (by decide) (by decide) rfl

/-- C2 counterexample: file b.txt holds a token with a missing name, yet the
render reports the MalformedToken site of the earlier file a.txt, not an
UnresolvedVariable error for that token. -/
theorem render_cex_malformed_before_unresolved :
    render [("a.txt", "\x7b\x7b."), ("b.txt", "\x7b\x7b.X\x7d\x7d")] [] =
      Except.error (RenderError.MalformedToken "a.txt" 0) ∧
    RenderError.MalformedToken "a.txt" 0 ≠ RenderError.UnresolvedVariable "X" "b.txt" :=
  ⟨rfl, by decide⟩

/-- C7 (amended): when some file of the template contains an opening
delimiter never closed within the file, the render fails (producing zero
output files); the error reported is the first error site in file order and
scan order, which is MalformedToken with that site's path and the unclosed
delimiter's offset whenever that first site is an unclosed delimiter. -/
theorem render_unclosed_fails (t : Template) (vars : VariableSet) (p c : String)
    (hf : (p, c) ∈ t) (hu : hasUnclosed c = true) :
    (∃ e, render t vars = Except.error e) ∧
    (∀ q k, (renderErrors t vars).head? = some (RenderError.MalformedToken q k) →
      render t vars = Except.error (RenderError.MalformedToken q k)) := by
  constructor
  · have hb : noBad (filePieces c) = false := by
      simpa [hasUnclosed] using hu
    rcases bad_mem_of_not_noBad _ hb with ⟨k, hk⟩
    have hmem : RenderError.MalformedToken p k ∈ fileErrors vars (p, c) :=
      malformed_mem_piecesErrors p vars _ k hk
    have hmem2 : RenderError.MalformedToken p k ∈ renderErrors t vars :=
      mem_renderErrors t vars (p, c) _ hf hmem
    cases hR : renderErrors t vars with
    | nil => rw [hR] at hmem2; simp at hmem2
    | cons e es =>
      refine ⟨e, ?_⟩
      rw [render_eq, hR]
  · intro q k h
    exact render_head_error t vars _ h

/-- C7 witness: a lone unclosed delimiter fails the render. -/
theorem render_unclosed_fails_at :
    (∃ e, render [("g.txt", "\x7b\x7b.")] [] = Except.error e) ∧
    (∀ q k, (renderErrors [("g.txt", "\x7b\x7b.")] []).head? =
        some (RenderError.MalformedToken q k) →
      render [("g.txt", "\x7b\x7b.")] [] =
        Except.error (RenderError.MalformedToken q k)) :=
  render_unclosed_fails _ _ "g.txt" "\x7b\x7b." (by decide) rfl

/-- C7 counterexample: the file holds an unclosed delimiter at offset 6, but
an unresolved token earlier in the scan is reported instead of the
MalformedToken error the claim demands. -/
theorem render_cex_unresolved_before_malformed :
    render [("a.txt", "\x7b\x7b.X\x7d\x7d\x7b\x7b.")] [] =
      Except.error (RenderError.UnresolvedVariable "X" "a.txt") ∧
    RenderError.UnresolvedVariable "X" "a.txt" ≠ RenderError.MalformedToken "a.txt" 6 :=
  ⟨rfl, by decide⟩

/-- C1 (amended): for a template with no unclosed opening delimiter, and a
variable set resolving every token name the template references, the render
succeeds; each output content is the substitution of the file's scanned
spans (literal characters unchanged, each token replaced by its variable's
value), and those spans decompose the input content exactly. The original
claim's further clause — that no literal token text referencing a resolved
name remains in the output — fails, because substituted values are inserted
verbatim and may themselves spell tokens (see the counterexample). -/
theorem render_covered_succeeds (t : Template) (vars : VariableSet)
    (hb : ∀ f ∈ t, noBad (filePieces f.2) = true)
    (hc : ∀ f ∈ t, ∀ n ∈ contentTokens f.2, (lookupVar vars n).isSome = true) :
    render t vars = Except.ok (renderedTemplate vars t) ∧
    ∀ f ∈ t, piecesSource (filePieces f.2) = f.2.data := by
  constructor
  · rw [render_ok_iff, renderErrors_nil_iff]
    intro f hf
    rw [fileErrors, piecesErrors_nil_iff]
    exact ⟨hb f hf, hc f hf⟩
  · intro f hf
    exact filePieces_source f.2 (hb f hf)

/-- C1 witness: a covered one-token template renders to its substitution. -/
theorem render_covered_succeeds_at :
    render [("m.txt", "Hi \x7b\x7b.A\x7d\x7d!")] [("A", "world")] =
      Except.ok (renderedTemplate [("A", "world")] [("m.txt", "Hi \x7b\x7b.A\x7d\x7d!")]) ∧
    ∀ f ∈ ([("m.txt", "Hi \x7b\x7b.A\x7d\x7d!")] : Template),
      piecesSource (filePieces f.2) = f.2.data :=
  render_covered_succeeds _ _ (by decide) (by decide)

/-- C1 counterexample: the variable set covers every referenced name (only
A) and the value of A itself spells the token span; the render succeeds, yet
the output content still contains a literal token referencing A, a name the
variable set resolves — refuting the claim's clause that no such literal
sequence remains. -/
theorem render_cex_value_spells_token :
    render [("a.txt", "\x7b\x7b.A\x7d\x7d")] [("A", "\x7b\x7b.A\x7d\x7d")] =
      Except.ok [("a.txt", "\x7b\x7b.A\x7d\x7d")] ∧
    contentTokens "\x7b\x7b.A\x7d\x7d" = ["A"] ∧
    (lookupVar [("A", "\x7b\x7b.A\x7d\x7d")] "A").isSome = true :=
  ⟨rfl, rfl, rfl⟩

/-- A concrete one-token template, variable set and rendered output used by
witnesses below. -/
def sampleT : Template := [("a.txt", "x \x7b\x7b.N\x7d\x7d y")]

/-- The variable set for sampleT. -/
def sampleV : VariableSet := [("N", "1")]

/-- The rendered output of sampleT under sampleV. -/
def sampleOut : RenderedOutput := [("a.txt", "x 1 y")]

/-- C4: a successful render has the same file count as its template and the
same relative path at every index, and each output content is the rendering
of a span decomposition of the corresponding input content — so content
differs only inside substituted token spans. -/
theorem render_preserves_shape (t : Template) (vars : VariableSet) (out : RenderedOutput)
    (h : render t vars = Except.ok out) :
    out.length = t.length ∧
    (∀ i (hi : i < out.length) (hj : i < t.length),
      (out.get ⟨i, hi⟩).1 = (t.get ⟨i, hj⟩).1) ∧
    (∀ i (hi : i < out.length) (hj : i < t.length),
      ∃ ps : List Piece, piecesSource ps = ((t.get ⟨i, hj⟩).2).data ∧
        (out.get ⟨i, hi⟩).2 = String.mk (piecesRender vars ps)) := by
  rcases render_ok_shape t vars out h with ⟨hout, hE⟩
  subst hout
  refine ⟨by simp [renderedTemplate], ?_, ?_⟩
  · intro i hi hj
    simp [renderedTemplate]
  · intro i hi hj
    refine ⟨filePieces ((t.get ⟨i, hj⟩).2), ?_, ?_⟩
    · apply filePieces_source
      have hf : fileErrors vars (t.get ⟨i, hj⟩) = [] :=
        (renderErrors_nil_iff t vars).mp hE _ (t.get_mem _ _)
      rw [fileErrors, piecesErrors_nil_iff] at hf
      exact hf.1
    · simp [renderedTemplate]

/-- C4 witness: shape preservation at a concrete render. -/
theorem render_preserves_shape_at :
    sampleOut.length = sampleT.length ∧
    (∀ i (hi : i < sampleOut.length) (hj : i < sampleT.length),
      (sampleOut.get ⟨i, hi⟩).1 = (sampleT.get ⟨i, hj⟩).1) ∧
    (∀ i (hi : i < sampleOut.length) (hj : i < sampleT.length),
      ∃ ps : List Piece, piecesSource ps = ((sampleT.get ⟨i, hj⟩).2).data ∧
        (sampleOut.get ⟨i, hi⟩).2 = String.mk (piecesRender sampleV ps)) :=
  render_preserves_shape sampleT sampleV sampleOut rfl

/-- C8: in a successful render every character outside a recognized token
span is carried over unchanged: the input content decomposes exactly into
the scanned spans, the output content renders those spans, and a literal
span — any character outside a token, brace characters forming no valid
token included — renders to exactly its own source text. -/
theorem render_preserves_untouched_text (t : Template) (vars : VariableSet)
    (out : RenderedOutput) (h : render t vars = Except.ok out) (i : Nat) (hi : i < t.length) :
    ∃ ps : List Piece,
      noBad ps = true ∧
      piecesSource ps = ((t.get ⟨i, hi⟩).2).data ∧
      (∃ hj : i < out.length, (out.get ⟨i, hj⟩).2 = String.mk (piecesRender vars ps)) ∧
      (∀ c : Char, pieceRender vars (Piece.lit c) = pieceSource (Piece.lit c)) := by
  rcases render_ok_shape t vars out h with ⟨hout, hE⟩
  subst hout
  have hf : fileErrors vars (t.get ⟨i, hi⟩) = [] :=
    (renderErrors_nil_iff t vars).mp hE _ (t.get_mem _ _)
  rw [fileErrors, piecesErrors_nil_iff] at hf
  refine ⟨filePieces ((t.get ⟨i, hi⟩).2), hf.1, filePieces_source _ hf.1,
    ⟨by simpa [renderedTemplate] using hi, ?_⟩, fun c => rfl⟩
  simp [renderedTemplate]

/-- C8 witness: literal text including the spaces around the token survives
a concrete render unchanged. -/
theorem render_preserves_untouched_text_at :
    ∃ ps : List Piece,
      noBad ps = true ∧
      piecesSource ps = ("x \x7b\x7b.N\x7d\x7d y" : String).data ∧
      (∃ hj : 0 < sampleOut.length,
        (sampleOut.get ⟨0, hj⟩).2 = String.mk (piecesRender sampleV ps)) ∧
      (∀ c : Char, pieceRender sampleV (Piece.lit c) = pieceSource (Piece.lit c)) :=
  render_preserves_untouched_text sampleT sampleV sampleOut rfl 0 (by decide)

/-- The shipped template file templates/fastapi-basic/main.py, embedded
verbatim (brace characters written as escapes); the file has no trailing
newline. -/
def fastapiMainPy : String :=
  "from fastapi import FastAPI\n\napp = FastAPI(\n    title=\"\x7b\x7b.ProjectName\x7d\x7d\",\n    description=\"A new project scaffolded by Open Workbench CLI.\",\n    version=\"0.1.0\",\n)\n\n@app.get(\"/\")\ndef read_root():\n    return \x7b\"message\": \"Welcome to \x7b\x7b.ProjectName\x7d\x7d!\", \"owner\": \"\x7b\x7b.Owner\x7d\x7d\"\x7d"

/-- The shipped fastapi-basic template as a one-file template. -/
def fastapiTemplate : Template := [("main.py", fastapiMainPy)]

/-- The literal text of main.py before the first ProjectName token. -/
def fastapiPartA : String := "from fastapi import FastAPI\n\napp = FastAPI(\n    title=\""

/-- The literal text of main.py between the first ProjectName token and the
second. -/
def fastapiPartB : String :=
  "\",\n    description=\"A new project scaffolded by Open Workbench CLI.\",\n    version=\"0.1.0\",\n)\n\n@app.get(\"/\")\ndef read_root():\n    return \x7b\"message\": \"Welcome to "

/-- The literal text of main.py between the second ProjectName token and the
Owner token. -/
def fastapiPartC : String := "!\", \"owner\": \""

/-- The literal text of main.py after the Owner token. -/
def fastapiPartD : String := "\"\x7d"

/-- The scan of main.py: three tokens, all delimiters closed. -/
theorem fastapiPieces :
    filePieces fastapiMainPy =
      fastapiPartA.data.map Piece.lit ++ [Piece.tok "ProjectName"] ++
      fastapiPartB.data.map Piece.lit ++ [Piece.tok "ProjectName"] ++
      fastapiPartC.data.map Piece.lit ++ [Piece.tok "Owner"] ++
      fastapiPartD.data.map Piece.lit := by
  decide

/-- Token names referenced by main.py, in scan order. -/
theorem fastapiTokens :
    contentTokens fastapiMainPy = ["ProjectName", "ProjectName", "Owner"] := by
  decide

/-- True exactly on a render result that failed with a MalformedToken
error. -/
def isMalformedResult : Except RenderError RenderedOutput → Bool
  | Except.error (RenderError.MalformedToken _ _) => true
  | _ => false

/-- C9: in the shipped template main.py every opening delimiter is closed
within the file (its scan has no bad span), so rendering the template never
returns a MalformedToken error, whatever the variable set. -/
theorem fastapi_never_malformed :
    noBad (filePieces fastapiMainPy) = true ∧
    ∀ vars : VariableSet, isMalformedResult (render fastapiTemplate vars) = false := by
  have hb : noBad (filePieces fastapiMainPy) = true := by decide
  refine ⟨hb, ?_⟩
  intro vars
  rw [render_eq]
  cases hR : renderErrors fastapiTemplate vars with
  | nil => rfl
  | cons e es =>
    have he : e ∈ renderErrors fastapiTemplate vars := by
      rw [hR]
      exact List.mem_cons_self _ _
    have he2 : e ∈ piecesErrors "main.py" vars (filePieces fastapiMainPy) := by
      simpa [renderErrors, fileErrors, fastapiTemplate] using he
    rcases errors_unresolved_of_noBad "main.py" vars _ hb e he2 with ⟨n, hn⟩
    subst hn
    rfl

/-- C9 witness: with the empty variable set the render fails, but not with a
MalformedToken error. -/
theorem fastapi_never_malformed_at :
    isMalformedResult (render fastapiTemplate []) = false :=
  fastapi_never_malformed.2 []

theorem piecesRender_append (vars : VariableSet) (ps qs : List Piece) :
    piecesRender vars (ps ++ qs) = piecesRender vars ps ++ piecesRender vars qs := by
  induction ps with
  | nil => simp [piecesRender]
  | cons p ps ih => simp [piecesRender, ih]

theorem string_mk_append (s : String) (l : List Char) :
    String.mk (s.data ++ l) = s ++ String.mk l := by
  cases s
  rfl

theorem piecesRender_tok (vars : VariableSet) (n : String) :
    piecesRender vars [Piece.tok n] = ((lookupVar vars n).getD "").data := by
  simp [piecesRender, pieceRender]

/-- C10: main.py references exactly the names ProjectName (twice) and Owner;
rendering the shipped template succeeds exactly when the variable set
resolves both ProjectName and Owner; and in any successful render both
ProjectName occurrences — the title on line 4 and the welcome message on
line 11 — are replaced by the same value v. -/
theorem fastapi_tokens_and_render :
    contentTokens fastapiMainPy = ["ProjectName", "ProjectName", "Owner"] ∧
    (∀ vars : VariableSet,
      (∃ out, render fastapiTemplate vars = Except.ok out) ↔
        ((lookupVar vars "ProjectName").isSome = true ∧
          (lookupVar vars "Owner").isSome = true)) ∧
    (∀ (vars : VariableSet) (v w : String),
      lookupVar vars "ProjectName" = some v → lookupVar vars "Owner" = some w →
      render fastapiTemplate vars =
        Except.ok [("main.py",
          fastapiPartA ++ v ++ fastapiPartB ++ v ++ fastapiPartC ++ w ++ fastapiPartD)]) := by
  have hb : noBad (filePieces fastapiMainPy) = true := by decide
  have hcov : ∀ vars : VariableSet,
      (lookupVar vars "ProjectName").isSome = true →
      (lookupVar vars "Owner").isSome = true →
      renderErrors fastapiTemplate vars = [] := by
    intro vars hP hO
    rw [renderErrors_nil_iff]
    intro f hf
    have hf1 : f = ("main.py", fastapiMainPy) := by
      simpa [fastapiTemplate] using hf
    subst hf1
    rw [fileErrors, piecesErrors_nil_iff]
    refine ⟨hb, ?_⟩
    intro n hn
    have hn2 : n = "ProjectName" ∨ n = "ProjectName" ∨ n = "Owner" := by
      have := fastapiTokens
      rw [contentTokens] at this
      rw [this] at hn
      simpa using hn
    rcases hn2 with h1 | h1 | h1 <;> subst h1
    · exact hP
    · exact hP
    · exact hO
  refine ⟨fastapiTokens, ?_, ?_⟩
  · intro vars
    constructor
    · rintro ⟨out, hout⟩
      rcases render_ok_shape _ _ _ hout with ⟨_, hE⟩
      have hfe : fileErrors vars ("main.py", fastapiMainPy) = [] := by
        rw [renderErrors_nil_iff] at hE
        exact hE _ (by simp [fastapiTemplate])
      rw [fileErrors, piecesErrors_nil_iff] at hfe
      have hall := hfe.2
      have hP := hall "ProjectName" (by rw [show piecesTokens (filePieces fastapiMainPy) = contentTokens fastapiMainPy from rfl, fastapiTokens]; simp)
      have hO := hall "Owner" (by rw [show piecesTokens (filePieces fastapiMainPy) = contentTokens fastapiMainPy from rfl, fastapiTokens]; simp)
      exact ⟨hP, hO⟩
    · rintro ⟨hP, hO⟩
      exact ⟨renderedTemplate vars fastapiTemplate, (render_ok_iff _ _).mpr (hcov vars hP hO)⟩
  · intro vars v w hv hw
    have hE := hcov vars (by rw [hv]; rfl) (by rw [hw]; rfl)
    have hok := (render_ok_iff fastapiTemplate vars).mpr hE
    rw [hok]
    have hdata : piecesRender vars (filePieces fastapiMainPy) =
        fastapiPartA.data ++ (v.data ++ (fastapiPartB.data ++ (v.data ++
          (fastapiPartC.data ++ (w.data ++ fastapiPartD.data))))) := by
      rw [fastapiPieces, piecesRender_append, piecesRender_append, piecesRender_append,
        piecesRender_append, piecesRender_append, piecesRender_append,
        piecesRender_lits, piecesRender_lits, piecesRender_lits, piecesRender_lits,
        piecesRender_tok, piecesRender_tok, hv, hw]
      simp only [Option.getD_some, List.append_assoc]
    have hstr : String.mk (piecesRender vars (filePieces fastapiMainPy)) =
        fastapiPartA ++ v ++ fastapiPartB ++ v ++ fastapiPartC ++ w ++ fastapiPartD := by
      apply String.ext
      rw [hdata]
      simp only [String.data_append, List.append_assoc]
    rw [show renderedTemplate vars fastapiTemplate =
        [("main.py", String.mk (piecesRender vars (filePieces fastapiMainPy)))] from rfl]
    rw [hstr]

/-- C10 witness: a concrete render of the shipped template, both
ProjectName occurrences replaced by Atlas and the Owner occurrence by
Jane. -/
theorem fastapi_tokens_and_render_at :
    render fastapiTemplate [("ProjectName", "Atlas"), ("Owner", "Jane")] =
      Except.ok [("main.py",
        fastapiPartA ++ "Atlas" ++ fastapiPartB ++ "Atlas" ++
          fastapiPartC ++ "Jane" ++ fastapiPartD)] :=
  fastapi_tokens_and_render.2.2 _ "Atlas" "Jane" rfl rfl

end OpenWorkbench
